import Mathlib

/-!
Verification development for the creador-event-attendance repository.

The definitions below are a shallow embedding of the logic of the
attendance tool: the CSV bulk-import parser (BulkImportDialog.tsx and its
identifier-based variant), the QR payload validation and session loading
of AttendancePage.tsx, the local attendance mutations and the save diff of
AttendancePage.tsx, the attendance batch update of api.ts, the group
resolution of eventData.ts (addGuest / createGroup / findGroupByName) and
of api.ts (findOrCreateGroup, bulkImportAttendees), and the statistics
function getEventStats of api.ts.

JavaScript strings manipulated character by character (split, trim,
toLowerCase, replace) are modelled as lists of characters so that every
definition evaluates inside the kernel; strings that are only compared for
equality or concatenated (identifiers, names, error messages) are kept as
Lean strings.  The JSON.parse builtin is external to the repository: its
result is modelled as an optional value of an inductive Json type, with
none standing for a raw string that JSON.parse rejects.  The hosted
database is modelled as an in-memory store on which the update statements
of the data access layer act; database calls are modelled on their success
path, since failures come from the external service.
-/

/-! ## JavaScript string primitives, modelled on lists of characters -/

/-- Character lists standing for JavaScript strings. -/
abbrev Str := List Char

/-- JavaScript String.prototype.split with a one-character separator:
splitting the empty string yields one empty field, and every separator
occurrence starts a new field. -/
def jsSplit (sep : Char) : Str → List Str
  | [] => [[]]
  | c :: cs =>
    let r := jsSplit sep cs
    if c = sep then [] :: r
    else
      match r with
      | [] => [[c]]
      | x :: xs => (c :: x) :: xs

/-- Whitespace test used for JavaScript trim and for the whitespace class
of the email pattern. -/
def isWsChar (c : Char) : Bool := c.isWhitespace

/-- JavaScript String.prototype.trim: drop whitespace from both ends. -/
def jsTrim (s : Str) : Str :=
  ((s.dropWhile isWsChar).reverse.dropWhile isWsChar).reverse

/-- JavaScript String.prototype.toLowerCase restricted to the characters
the headers use. -/
def jsToLower (s : Str) : Str := s.map Char.toLower

/-- JavaScript value.replace with a global quote pattern: removing every
double quote character is filtering the quote character out. -/
def stripQuotes (s : Str) : Str := s.filter (fun c => !(c = '"'))

/-- Decimal digit as a character, for building row-numbered error
messages. -/
def digitChar : Nat → Char
  | 0 => '0'
  | 1 => '1'
  | 2 => '2'
  | 3 => '3'
  | 4 => '4'
  | 5 => '5'
  | 6 => '6'
  | 7 => '7'
  | 8 => '8'
  | _ => '9'

/-- Fuel-driven decimal rendering of a natural number (structural
recursion so that it evaluates inside the kernel). -/
def natToStrAux : Nat → Nat → Str
  | 0, _ => []
  | fuel + 1, n =>
    if n < 10 then [digitChar n]
    else natToStrAux fuel (n / 10) ++ [digitChar (n % 10)]

/-- Decimal rendering of a natural number as a character list. -/
def natToStr (n : Nat) : Str := natToStrAux (n + 1) n

/-! ## Bulk import CSV parser (BulkImportDialog.tsx, parseCSV)

The parser of src/frontend/src/components/BulkImportDialog.tsx splits the
text into non-empty lines, lower-cases and trims the header cells, aborts
when a required column name is absent from the headers, and otherwise maps
each data row positionally onto the headers, skipping short rows and
recording one error per invalid row. -/

/-- Guest record produced by the group-name variant of the CSV parser. -/
structure CsvGuest where
  name : Str
  email : Str
  groupName : Str
  role : Option Str
  deriving DecidableEq, Repr

/-- Partially filled guest while the header/value columns are walked; a
field holds none while the corresponding JavaScript property is still
undefined. -/
structure RawGuest where
  name : Option Str
  email : Option Str
  groupName : Option Str
  groupId : Option Str
  role : Option Str
  deriving DecidableEq, Repr

/-- The empty guest object before any column is assigned. -/
def RawGuest.empty : RawGuest := ⟨none, none, none, none, none⟩

/-- JavaScript truthiness of a possibly undefined string: undefined and
the empty string are falsy. -/
def truthyStr : Option Str → Bool
  | none => false
  | some s => !s.isEmpty

/-- One switch step of the header walk of parseCSV (group-name variant):
the spellings groupname, group_name and group all assign the groupName
property, and an empty role becomes undefined. -/
def assignField (g : RawGuest) (header value : Str) : RawGuest :=
  if header = "name".toList then { g with name := some value }
  else if header = "email".toList then { g with email := some value }
  else if header = "groupname".toList ∨ header = "group_name".toList ∨ header = "group".toList then
    { g with groupName := some value }
  else if header = "role".toList then
    { g with role := if value.isEmpty then none else some value }
  else g

/-- One switch step of the header walk of the identifier-based parser
variant: the spellings groupid and group_id assign the groupId
property. -/
def assignFieldById (g : RawGuest) (header value : Str) : RawGuest :=
  if header = "name".toList then { g with name := some value }
  else if header = "email".toList then { g with email := some value }
  else if header = "groupid".toList ∨ header = "group_id".toList then
    { g with groupId := some value }
  else if header = "role".toList then
    { g with role := if value.isEmpty then none else some value }
  else g

/-- Walk the headers positionally over the row values, as the forEach over
headers does: the value at each index is unquoted and trimmed before the
switch dispatches on the header name. -/
def buildGuest (assign : RawGuest → Str → Str → RawGuest) :
    List Str → Nat → List Str → RawGuest → RawGuest
  | [], _, _, g => g
  | h :: hs, idx, values, g =>
    buildGuest assign hs (idx + 1) values
      (assign g h (jsTrim (stripQuotes (values.getD idx []))))

/-- Basic local@domain.tld email shape test.  The source checks the
pattern of one or more characters that are neither whitespace nor the at
sign, an at sign, again such characters, a dot, and again such characters
to the end.  A string matches that pattern exactly when it contains no
whitespace, contains exactly one at sign, has at least one character
before the at sign, and the part after the at sign contains a dot that is
neither its first nor its last character. -/
def emailOk (s : Str) : Bool :=
  let before := s.takeWhile (fun c => !(c = '@'))
  let after := (s.dropWhile (fun c => !(c = '@'))).drop 1
  s.all (fun c => !isWsChar c) &&
    (s.filter (fun c => c = '@')).length = 1 &&
    !before.isEmpty &&
    ((after.drop 1).dropLast).contains '.'

/-- Validation of one built guest row for the group-name variant: the row
is rejected when name, email or groupName is undefined or empty, or when
the email fails the shape test; i is the JavaScript loop index of the
line, so the reported row number is i plus one. -/
def validateGuest (i : Nat) (g : RawGuest) : Except Str CsvGuest :=
  if truthyStr g.name && truthyStr g.email && truthyStr g.groupName then
    if emailOk (g.email.getD []) then
      Except.ok ⟨g.name.getD [], g.email.getD [], g.groupName.getD [], g.role⟩
    else
      Except.error ("Row ".toList ++ natToStr (i + 1) ++ ": Invalid email format".toList)
  else
    Except.error
      ("Row ".toList ++ natToStr (i + 1) ++
        ": Missing required fields (name, email, or groupName)".toList)

/-- Guest record produced by the identifier-based variant: the parser of
that variant starts every guest with isPresent false. -/
structure CsvGuestById where
  name : Str
  email : Str
  groupId : Str
  role : Option Str
  isPresent : Bool
  deriving DecidableEq, Repr

/-- Validation of one built guest row for the identifier-based variant. -/
def validateGuestById (i : Nat) (g : RawGuest) : Except Str CsvGuestById :=
  if truthyStr g.name && truthyStr g.email && truthyStr g.groupId then
    if emailOk (g.email.getD []) then
      Except.ok ⟨g.name.getD [], g.email.getD [], g.groupId.getD [], g.role, false⟩
    else
      Except.error ("Row ".toList ++ natToStr (i + 1) ++ ": Invalid email format".toList)
  else
    Except.error
      ("Row ".toList ++ natToStr (i + 1) ++
        ": Missing required fields (name, email, or groupId)".toList)

/-- Data row loop shared by both parser variants: a row with fewer values
than headers is skipped silently, a failing row records one error, and a
valid row is collected in input order. -/
def parseRows {G : Type} (validate : Nat → RawGuest → Except Str G)
    (assign : RawGuest → Str → Str → RawGuest) (headers : List Str) :
    Nat → List Str → List G × List Str
  | _, [] => ([], [])
  | i, line :: rest =>
    let r := parseRows validate assign headers (i + 1) rest
    let values := (jsSplit ',' line).map jsTrim
    if values.length < headers.length then r
    else
      match validate i (buildGuest assign headers 0 values RawGuest.empty) with
      | Except.ok g => (g :: r.1, r.2)
      | Except.error e => (r.1, e :: r.2)

/-- The non-empty lines of the CSV text: split on the newline character
and keep the lines whose trimmed form is non-empty (JavaScript filters on
the truthiness of line.trim()). -/
def csvLines (csv : Str) : List Str :=
  (jsSplit '\n' csv).filter (fun l => !(jsTrim l).isEmpty)

/-- The lower-cased trimmed header cells of the first line. -/
def csvHeaders (csv : Str) : List Str :=
  (jsSplit ',' ((csvLines csv).headD [])).map (fun h => jsToLower (jsTrim h))

/-- The required column names of the group-name variant that are absent
from the headers.  The source requires the literal spellings name, email
and groupname here. -/
def missingColumns (csv : Str) : List Str :=
  ["name".toList, "email".toList, "groupname".toList].filter
    (fun f => !(csvHeaders csv).contains f)

/-- The required column names of the identifier-based variant that are
absent from the headers: the literal spellings name, email and groupid. -/
def missingColumnsById (csv : Str) : List Str :=
  ["name".toList, "email".toList, "groupid".toList].filter
    (fun f => !(csvHeaders csv).contains f)

/-- The single abort message listing every missing required column. -/
def missingColumnsMsg (missing : List Str) : Str :=
  "Missing required columns: ".toList ++ List.intercalate ", ".toList missing

/-- parseCSV of BulkImportDialog.tsx (group-name variant): returns the
valid guests and the error strings the parser reports. -/
def parseCSV (csv : Str) : List CsvGuest × List Str :=
  if (csvLines csv).length < 2 then
    ([], ["CSV file must contain headers and at least one data row".toList])
  else if !(missingColumns csv).isEmpty then
    ([], [missingColumnsMsg (missingColumns csv)])
  else parseRows validateGuest assignField (csvHeaders csv) 1 ((csvLines csv).drop 1)

/-- parseCSV of the identifier-based dialog variant. -/
def parseCSVById (csv : Str) : List CsvGuestById × List Str :=
  if (csvLines csv).length < 2 then
    ([], ["CSV file must contain headers and at least one data row".toList])
  else if !(missingColumnsById csv).isEmpty then
    ([], [missingColumnsMsg (missingColumnsById csv)])
  else parseRows validateGuestById assignFieldById (csvHeaders csv) 1 ((csvLines csv).drop 1)

/-! ## QR payload contract (AttendancePage.tsx, loadEventData lines 64 to 88)

The scanned payload is a raw string handed to the JSON.parse builtin.  The
builtin is outside the repository, so its outcome is the model input: none
stands for a raw string on which JSON.parse throws, and some j for a
successful parse producing the JSON value j. -/

/-- JSON values as produced by the JSON.parse builtin. -/
inductive Json where
  | null
  | bool (b : Bool)
  | num (n : Int)
  | str (s : String)
  | arr (elems : List Json)
  | obj (fields : List (String × Json))

/-- JavaScript member access on a parsed JSON value.  On an object the
last binding of the key wins, as JSON.parse keeps the last duplicate key;
on every other value the access yields no value (undefined, or the thrown
type error on null, which the surrounding catch turns into the same
invalid-format failure as an undefined field). -/
def jsMember (j : Json) (key : String) : Option Json :=
  match j with
  | Json.obj fields => (fields.reverse.find? (fun p => p.1 == key)).map (fun p => p.2)
  | _ => none

/-- JavaScript truthiness of a possibly undefined JSON value: undefined,
null, false, zero and the empty string are falsy. -/
def jsTruthy : Option Json → Bool
  | none => false
  | some Json.null => false
  | some (Json.bool b) => b
  | some (Json.num n) => !(n = 0)
  | some (Json.str s) => !(s = "")
  | some (Json.arr _) => true
  | some (Json.obj _) => true

/-- The event and group that loadEventData resolves before touching the
database, from the eventId prop and the active QR payload (lines 64 to 88
of AttendancePage.tsx).  A supplied payload that fails to parse, or whose
group_id or event_id member is falsy, makes the load fail with the
invalid-QR-format error; otherwise the pair of members is adopted.  With
no payload the eventId prop is used and only its absence (or emptiness,
which is falsy) fails. -/
def resolveQr (eventIdProp : Option String) (activeQrData : Option (Option Json)) :
    Except String (Json × Option Json) :=
  match activeQrData with
  | some raw =>
    match raw with
    | none => Except.error "Invalid QR code format"
    | some j =>
      if !(jsTruthy (jsMember j "group_id")) || !(jsTruthy (jsMember j "event_id")) then
        Except.error "Invalid QR code format"
      else
        Except.ok ((jsMember j "event_id").getD Json.null,
          some ((jsMember j "group_id").getD Json.null))
  | none =>
    match eventIdProp with
    | some e => if !(e = "") then Except.ok (Json.str e, none) else Except.error "No event ID provided"
    | none => Except.error "No event ID provided"

/-! ## Attendance session state (AttendancePage.tsx)

The component state that the reconciliation engine mutates: the working
copy of the attendee list, the baseline snapshot stored at load or save
time, and the unsaved-changes flag. -/

/-- An attendee row as the attendance page holds it (the joined group
columns and the updated_at column are carried along untouched by the
local mutations). -/
structure Attendee where
  id : String
  name : String
  email : String
  is_attending : Bool
  checked_in_at : Option String
  checked_in_by : Option String
  updated_at : Option String
  deriving DecidableEq, Repr

/-- The attendance session state of AttendancePage. -/
structure Session where
  attendees : List Attendee
  originalAttendees : List Attendee
  hasUnsavedChanges : Bool
  deriving DecidableEq, Repr

/-- The session right after a successful load: the fetched list becomes
both the working copy and the baseline, and the dirty flag is cleared. -/
def initialSession (l : List Attendee) : Session := ⟨l, l, false⟩

/-- Applying the outcome of a load to the session: a successful fetch
replaces working copy and baseline, a failed load (which only sets the
error message) leaves the session untouched. -/
def applyLoadResult (s : Session) (r : Except String (List Attendee)) : Session :=
  match r with
  | Except.ok l => initialSession l
  | Except.error _ => s

/-- toggleAttendance of AttendancePage.tsx on the working copy: flip the
flag of the addressed attendee; a flip to present stamps the check-in
time and operator, a flip to absent clears both. -/
def toggleAttendance (staffName now attendeeId : String) (l : List Attendee) : List Attendee :=
  l.map fun a =>
    if a.id == attendeeId then
      { a with
        is_attending := !a.is_attending,
        checked_in_at := if !a.is_attending then some now else none,
        checked_in_by := if !a.is_attending then some staffName else none }
    else a

/-- toggleAttendance as a session step: the dirty flag is set
unconditionally. -/
def toggleSession (staffName now attendeeId : String) (s : Session) : Session :=
  { s with
    attendees := toggleAttendance staffName now attendeeId s.attendees,
    hasUnsavedChanges := true }

/-- markAllPresent of AttendancePage.tsx: when at least one attendee is
not yet present, every attendee of the working copy is mapped to present
with a fresh timestamp and operator and the dirty flag is set; otherwise
nothing happens. -/
def markAllPresent (staffName now : String) (s : Session) : Session :=
  if ((s.attendees.filter (fun a => !a.is_attending)).map (fun a => a.id)).length > 0 then
    { s with
      attendees := s.attendees.map (fun a =>
        { a with
          is_attending := true,
          checked_in_at := some now,
          checked_in_by := some staffName }),
      hasUnsavedChanges := true }
  else s

/-- clearAll of AttendancePage.tsx: when at least one attendee is present,
every attendee of the working copy is mapped to absent with cleared
timestamp and operator and the dirty flag is set; otherwise nothing
happens. -/
def clearAll (s : Session) : Session :=
  if ((s.attendees.filter (fun a => a.is_attending)).map (fun a => a.id)).length > 0 then
    { s with
      attendees := s.attendees.map (fun a =>
        { a with
          is_attending := false,
          checked_in_at := none,
          checked_in_by := none }),
      hasUnsavedChanges := true }
  else s

/-- The local mutations a session admits between load and save. -/
inductive Mutation where
  | toggle (staffName now attendeeId : String)
  | markAll (staffName now : String)
  | clear

/-- One local mutation applied to the session. -/
def applyMutation (s : Session) : Mutation → Session
  | Mutation.toggle staffName now attendeeId => toggleSession staffName now attendeeId s
  | Mutation.markAll staffName now => markAllPresent staffName now s
  | Mutation.clear => clearAll s

/-- A sequence of local mutations applied in order. -/
def applyMutations (s : Session) : List Mutation → Session
  | [] => s
  | m :: ms => applyMutations (applyMutation s m) ms

/-- The changed attendees that saveAttendance collects: the working copy
is filtered by comparing each entry with the baseline entry at the same
array index, keeping the entries whose attendance flag differs.  An index
with no baseline entry compares as unchanged, and surplus baseline
entries are never consulted, which is exactly the pairwise walk of the
two lists zipped together. -/
def changedAttendees (working baseline : List Attendee) : List Attendee :=
  ((working.zip baseline).filter
    (fun p => !(p.1.is_attending == p.2.is_attending))).map (fun p => p.1)

/-- One batch persistence call issued by saveAttendance: the addressed
ids, the flag value written, and the operator string passed along. -/
structure MarkCall where
  ids : List String
  isAttending : Bool
  checkedInBy : String
  deriving DecidableEq, Repr

/-- The id batch saveAttendance marks present: the changed entries whose
current flag is true. -/
def toMarkPresent (s : Session) : List String :=
  ((changedAttendees s.attendees s.originalAttendees).filter
    (fun a => a.is_attending)).map (fun a => a.id)

/-- The id batch saveAttendance marks absent: the changed entries whose
current flag is false. -/
def toMarkAbsent (s : Session) : List String :=
  ((changedAttendees s.attendees s.originalAttendees).filter
    (fun a => !a.is_attending)).map (fun a => a.id)

/-- saveAttendance of AttendancePage.tsx on its success path: nothing is
issued without unsaved changes or without changed entries; otherwise the
changed entries are partitioned by their current flag into a now-present
batch (flag true, operator set) and a now-absent batch (flag false, empty
operator), each issued only when non-empty, and the baseline is replaced
by the working copy with the dirty flag cleared. -/
def saveAttendance (staffName : String) (s : Session) : List MarkCall × Session :=
  if !s.hasUnsavedChanges then ([], s)
  else if (changedAttendees s.attendees s.originalAttendees).length = 0 then
    ([], { s with hasUnsavedChanges := false })
  else
    ((if (toMarkPresent s).length > 0 then [⟨toMarkPresent s, true, staffName⟩] else []) ++
      (if (toMarkAbsent s).length > 0 then [⟨toMarkAbsent s, false, ""⟩] else []),
      ⟨s.attendees, s.attendees, false⟩)

/-- The id list of the changed attendees whose current flag equals the
given value, the set each batch of the save diff addresses. -/
def diffIds (working baseline : List Attendee) (flag : Bool) : List String :=
  ((changedAttendees working baseline).filter
    (fun a => a.is_attending == flag)).map (fun a => a.id)

/-- markAttendance of api.ts applied to the stored rows: every row whose
id is in the batch receives the flag, a stamped or cleared check-in time
and operator, and a fresh updated_at. -/
def markAttendance (attendeeIds : List String) (isAttending : Bool)
    (checkedInBy now : String) (rows : List Attendee) : List Attendee :=
  rows.map fun a =>
    if a.id ∈ attendeeIds then
      { a with
        is_attending := isAttending,
        checked_in_at := if isAttending then some now else none,
        checked_in_by := if isAttending then some checkedInBy else none,
        updated_at := some now }
    else a

/-- The checked-in-iff invariant of one attendee record: the check-in
time and operator are present exactly when the attendance flag is
true. -/
def CheckedInIff (a : Attendee) : Prop :=
  a.is_attending = true ↔ (a.checked_in_at ≠ none ∧ a.checked_in_by ≠ none)

instance (a : Attendee) : Decidable (CheckedInIff a) :=
  inferInstanceAs (Decidable (_ ↔ _ ∧ _))

/-! ## Group resolution (eventData.ts and api.ts) against the stored data -/

/-- A group row of the hosted store. -/
structure GroupRow where
  id : String
  event_id : String
  name : String
  email : String
  deriving DecidableEq, Repr

/-- An attendee row as bulk import inserts it. -/
structure AttendeeInsertRow where
  event_id : String
  group_id : String
  name : String
  email : String
  is_attending : Bool
  deriving DecidableEq, Repr

/-- The hosted store as the group and import logic sees it, with a
counter standing for the id generator of the database. -/
structure Db where
  nextId : Nat
  groups : List GroupRow
  attendees : List AttendeeInsertRow
  deriving DecidableEq, Repr

/-- The identifier the store hands to the next inserted group. -/
def freshGroupId (db : Db) : String := String.mk ('g' :: natToStr db.nextId)

/-- createGroup of eventData.ts (and the insert branch of
findOrCreateGroup of api.ts) on its success path: one group row is
inserted with the given name and contact email, scoped to the event. -/
def createGroup (db : Db) (eventId name email : String) : GroupRow × Db :=
  (⟨freshGroupId db, eventId, name, email⟩,
    { db with
      nextId := db.nextId + 1,
      groups := db.groups ++ [⟨freshGroupId db, eventId, name, email⟩] })

/-- The group rows of the event whose name equals the requested name
exactly (the two equality filters of the queries). -/
def matchingGroups (db : Db) (eventId name : String) : List GroupRow :=
  db.groups.filter (fun g => g.event_id == eventId && g.name == name)

/-- findGroupByName of eventData.ts: the single() call yields the row
only when exactly one row matches; no row, or several rows, yield null. -/
def findGroupByName (db : Db) (eventId name : String) : Option GroupRow :=
  match matchingGroups db eventId name with
  | [g] => some g
  | _ => none

/-- The group resolution step of addGuest of eventData.ts: the sentinel
name CREATE_NEW_GROUP always creates a group named after the submitting
guest with the guest email; any other name is looked up and a miss throws
the group-not-found error naming the requested group.  Modelled on the
success path of the createGroup insert. -/
def resolveGroupAddGuest (db : Db) (eventId guestName guestEmail groupName : String) :
    Except String (GroupRow × Db) :=
  if groupName == "CREATE_NEW_GROUP" then
    Except.ok (createGroup db eventId guestName guestEmail)
  else
    match findGroupByName db eventId groupName with
    | some g => Except.ok (g, db)
    | none => Except.error ("Group \"" ++ groupName ++ "\" not found")

/-- findOrCreateGroup of api.ts: maybeSingle() yields the unique matching
row, null when no row matches (in which case a group is created with the
requested name), and an error (modelled as none) when several rows
match. -/
def findOrCreateGroup (db : Db) (eventId groupName contactEmail : String) :
    Option (GroupRow × Db) :=
  match matchingGroups db eventId groupName with
  | [] => some (createGroup db eventId groupName contactEmail)
  | [g] => some (g, db)
  | _ => none

/-! ## Bulk import (api.ts, bulkImportAttendees) -/

/-- One input row of bulkImportAttendees. -/
structure ImportRow where
  name : String
  email : String
  groupName : String
  deriving DecidableEq, Repr

/-- The group names of the input rows in first-occurrence order, the key
order of the reduce-built record the import loops over (fuel-driven so
that it evaluates inside the kernel). -/
def firstOccurrencesAux : Nat → List String → List String
  | 0, _ => []
  | _, [] => []
  | fuel + 1, k :: ks => k :: firstOccurrencesAux fuel (ks.filter (fun x => !(x == k)))

/-- The distinct group names of the input rows in first-occurrence
order. -/
def firstOccurrences (l : List String) : List String := firstOccurrencesAux l.length l

/-- Result of a bulk import run: the final store, the count of inserted
attendees, the error strings, and the attendee rows that were inserted. -/
structure BulkResult where
  db : Db
  successCount : Nat
  errors : List String
  inserted : List AttendeeInsertRow
  deriving DecidableEq, Repr

/-- The attendee rows bulk import builds for one resolved group: every
row of the group, inserted with the attendance flag false. -/
def bulkInsertRows (eventId gid : String) (groupRows : List ImportRow) :
    List AttendeeInsertRow :=
  groupRows.map (fun r => (⟨eventId, gid, r.name, r.email, false⟩ : AttendeeInsertRow))

/-- The effect of one failed group resolution on the remaining import
result: one error is recorded and the rows of the group are skipped. -/
def bulkStepFail (key : String) (r : BulkResult) : BulkResult :=
  ⟨r.db, r.successCount, ("Failed to create or find group: " ++ key) :: r.errors, r.inserted⟩

/-- The effect of one successfully imported group on the remaining import
result: the built rows count as successes and are recorded as
inserted. -/
def bulkStepOk (newRows : List AttendeeInsertRow) (r : BulkResult) : BulkResult :=
  ⟨r.db, newRows.length + r.successCount, r.errors, newRows ++ r.inserted⟩

/-- The per-group loop of bulkImportAttendees: for each group name the
group is found or created, and on success every row of that group is
inserted (appended to the store) with the attendance flag false; a group
resolution failure records an error and skips its rows. -/
def bulkImportGo (eventId : String) (rows : List ImportRow) :
    List String → Db → BulkResult
  | [], db => ⟨db, 0, [], []⟩
  | key :: keys, db =>
    match findOrCreateGroup db eventId key
        (((rows.filter (fun r => r.groupName == key)).headD ⟨"", "", ""⟩).email) with
    | none => bulkStepFail key (bulkImportGo eventId rows keys db)
    | some (g, db1) =>
      bulkStepOk (bulkInsertRows eventId g.id (rows.filter (fun r => r.groupName == key)))
        (bulkImportGo eventId rows keys
          ⟨db1.nextId, db1.groups,
            db1.attendees ++ bulkInsertRows eventId g.id (rows.filter (fun r => r.groupName == key))⟩)

/-- bulkImportAttendees of api.ts: the rows are grouped by their group
name and processed group by group. -/
def bulkImportAttendees (db : Db) (eventId : String) (rows : List ImportRow) : BulkResult :=
  bulkImportGo eventId rows (firstOccurrences (rows.map (fun r => r.groupName))) db

/-! ## Event statistics (api.ts, getEventStats) -/

/-- The statistics record getEventStats returns. -/
structure Stats where
  total_attendees : Nat
  checked_in : Nat
  attendance_rate : Int
  deriving DecidableEq, Repr

/-- getEventStats of api.ts over the fetched is_attending column: none
stands for a failed query, which yields all-zero statistics; otherwise
the rate is the rounded percentage, zero when the event has no attendees
(the floating point arithmetic of the source is modelled exactly over the
rationals, and Math.round on a non-negative value is rounding half
up). -/
def getEventStats (queryResult : Option (List Bool)) : Stats :=
  match queryResult with
  | none => ⟨0, 0, 0⟩
  | some flags =>
    ⟨flags.length, (flags.filter (fun b => b)).length,
      round (if flags.length > 0 then
        (((flags.filter (fun b => b)).length : ℚ) / (flags.length : ℚ)) * 100
      else (0 : ℚ))⟩

/-! ## Helper lemmas -/

/-- Boolean equality test against true is the value itself. -/
theorem beq_true_eq (b : Bool) : (b == true) = b := by cases b <;> rfl

/-- Boolean equality test against false is the negation. -/
theorem beq_false_eq (b : Bool) : (b == false) = !b := by cases b <;> rfl

/-- Filtering a mapped list with a predicate that rejects every image
yields the empty list. -/
theorem filter_map_of_false {α : Type} (f : α → α) (p : α → Bool) (l : List α)
    (h : ∀ a, p (f a) = false) : (l.map f).filter p = [] := by
  induction l with
  | nil => rfl
  | cons a l ih => simp [List.filter_cons, h a, ih]

/-- A list compared with itself has no changed attendees. -/
theorem changedAttendees_self (l : List Attendee) : changedAttendees l l = [] := by
  induction l with
  | nil => rfl
  | cons a l ih =>
    simp only [changedAttendees, List.zip_cons_cons, List.filter_cons] at ih ⊢
    simp [ih]

/-- A pointwise transformation that preserves the attendance flag
produces no changed attendees against the untransformed baseline. -/
theorem changedAttendees_map_self (l : List Attendee) (f : Attendee → Attendee)
    (h : ∀ a, (f a).is_attending = a.is_attending) :
    changedAttendees (l.map f) l = [] := by
  induction l with
  | nil => rfl
  | cons a l ih =>
    simp only [changedAttendees, List.map_cons, List.zip_cons_cons, List.filter_cons] at ih ⊢
    simp [h a, ih]

/-- markAllPresent never touches the baseline snapshot. -/
theorem markAllPresent_originalAttendees (staff now : String) (s : Session) :
    (markAllPresent staff now s).originalAttendees = s.originalAttendees := by
  unfold markAllPresent
  split <;> rfl

/-- clearAll never touches the baseline snapshot. -/
theorem clearAll_originalAttendees (s : Session) :
    (clearAll s).originalAttendees = s.originalAttendees := by
  unfold clearAll
  split <;> rfl

/-- Local mutations never touch the baseline snapshot. -/
theorem applyMutation_original (s : Session) (m : Mutation) :
    (applyMutation s m).originalAttendees = s.originalAttendees := by
  cases m with
  | toggle staff now aid => rfl
  | markAll staff now => exact markAllPresent_originalAttendees staff now s
  | clear => exact clearAll_originalAttendees s

/-- A sequence of local mutations never touches the baseline snapshot. -/
theorem applyMutations_original (ms : List Mutation) (s : Session) :
    (applyMutations s ms).originalAttendees = s.originalAttendees := by
  induction ms generalizing s with
  | nil => rfl
  | cons m ms ih => rw [applyMutations, ih, applyMutation_original]

/-- toggleAttendance keeps the identifiers of the list in place. -/
theorem toggleAttendance_idMap (staff now aid : String) (l : List Attendee) :
    (toggleAttendance staff now aid l).map (fun a => a.id) = l.map (fun a => a.id) := by
  unfold toggleAttendance
  rw [List.map_map]
  exact List.map_congr_left fun a _ => by by_cases h : a.id = aid <;> simp [h]

/-- markAllPresent keeps the identifiers of the working copy in place. -/
theorem markAllPresent_idMap (staff now : String) (s : Session) :
    (markAllPresent staff now s).attendees.map (fun a => a.id) =
      s.attendees.map (fun a => a.id) := by
  unfold markAllPresent
  split
  · dsimp only
    rw [List.map_map]
    exact List.map_congr_left fun a _ => rfl
  · rfl

/-- clearAll keeps the identifiers of the working copy in place. -/
theorem clearAll_idMap (s : Session) :
    (clearAll s).attendees.map (fun a => a.id) = s.attendees.map (fun a => a.id) := by
  unfold clearAll
  split
  · dsimp only
    rw [List.map_map]
    exact List.map_congr_left fun a _ => rfl
  · rfl

/-- Local mutations keep the identifiers of the working copy in place. -/
theorem applyMutation_idMap (s : Session) (m : Mutation) :
    (applyMutation s m).attendees.map (fun a => a.id) = s.attendees.map (fun a => a.id) := by
  cases m with
  | toggle staff now aid => exact toggleAttendance_idMap staff now aid s.attendees
  | markAll staff now => exact markAllPresent_idMap staff now s
  | clear => exact clearAll_idMap s

/-- A sequence of local mutations keeps the identifiers of the working
copy in place. -/
theorem applyMutations_idMap (ms : List Mutation) (s : Session) :
    (applyMutations s ms).attendees.map (fun a => a.id) = s.attendees.map (fun a => a.id) := by
  induction ms generalizing s with
  | nil => rfl
  | cons m ms ih => rw [applyMutations, ih, applyMutation_idMap]

/-- A markAllPresent result with a clear dirty flag is the untouched
session. -/
theorem markAllPresent_clean (staff now : String) (s : Session)
    (h : (markAllPresent staff now s).hasUnsavedChanges = false) :
    markAllPresent staff now s = s := by
  unfold markAllPresent at h ⊢
  split at h
  · exact absurd h (by simp)
  · split
    · omega
    · rfl

/-- A clearAll result with a clear dirty flag is the untouched session. -/
theorem clearAll_clean (s : Session)
    (h : (clearAll s).hasUnsavedChanges = false) : clearAll s = s := by
  unfold clearAll at h ⊢
  split at h
  · exact absurd h (by simp)
  · split
    · omega
    · rfl

/-- One local mutation preserves the property that a clear dirty flag
means the working copy equals the baseline. -/
theorem applyMutation_clean (s : Session) (m : Mutation)
    (h : s.hasUnsavedChanges = false → s.attendees = s.originalAttendees) :
    (applyMutation s m).hasUnsavedChanges = false →
      (applyMutation s m).attendees = (applyMutation s m).originalAttendees := by
  cases m with
  | toggle staff now aid =>
    intro hf
    exact absurd hf (by simp [applyMutation, toggleSession])
  | markAll staff now =>
    intro hf
    have hf2 : (markAllPresent staff now s).hasUnsavedChanges = false := hf
    have he := markAllPresent_clean staff now s hf2
    show (markAllPresent staff now s).attendees = (markAllPresent staff now s).originalAttendees
    rw [he]
    exact h (by rw [he] at hf2; exact hf2)
  | clear =>
    intro hf
    have hf2 : (clearAll s).hasUnsavedChanges = false := hf
    have he := clearAll_clean s hf2
    show (clearAll s).attendees = (clearAll s).originalAttendees
    rw [he]
    exact h (by rw [he] at hf2; exact hf2)

/-- Over a whole mutation sequence: a clear dirty flag means the working
copy still equals the baseline. -/
theorem applyMutations_clean (ms : List Mutation) (s : Session)
    (h : s.hasUnsavedChanges = false → s.attendees = s.originalAttendees) :
    (applyMutations s ms).hasUnsavedChanges = false →
      (applyMutations s ms).attendees = (applyMutations s ms).originalAttendees := by
  induction ms generalizing s with
  | nil => exact h
  | cons m ms ih => exact ih (applyMutation s m) (applyMutation_clean s m h)

/-! ## C5: markAllPresent frame behaviour -/

/-- C5 counterexample: markAllPresent does not leave already-present
records unchanged.  In a working copy with one absent attendee and one
attendee already present (checked in at t0 by alice), marking all
present rewrites the already-present record with the fresh timestamp t1
and operator bob, so the resulting record differs from the original. -/
theorem markAllPresent_rewrites_present_counterexample :
    (⟨"a2", "B", "b@x.com", true, some "t0", some "alice", none⟩ : Attendee).is_attending = true ∧
    (markAllPresent "bob" "t1" (initialSession
        [⟨"a1", "A", "a@x.com", false, none, none, none⟩,
         ⟨"a2", "B", "b@x.com", true, some "t0", some "alice", none⟩])).attendees[1]? =
      some ⟨"a2", "B", "b@x.com", true, some "t1", some "bob", none⟩ ∧
    (⟨"a2", "B", "b@x.com", true, some "t1", some "bob", none⟩ : Attendee) ≠
      ⟨"a2", "B", "b@x.com", true, some "t0", some "alice", none⟩ := by
  decide

/-- C5 amended: when at least one attendee is not yet present,
markAllPresent maps every attendee of the working copy (already-present
ones included) to present with the fresh timestamp and operator and sets
the dirty flag; when every attendee is already present it is a no-op. -/
theorem markAllPresent_spec :
    (∀ (staff now : String) (s : Session), (∃ a ∈ s.attendees, a.is_attending = false) →
      markAllPresent staff now s =
        { s with
          attendees := s.attendees.map (fun a =>
            { a with
              is_attending := true,
              checked_in_at := some now,
              checked_in_by := some staff }),
          hasUnsavedChanges := true }) ∧
    (∀ (staff now : String) (s : Session), (∀ a ∈ s.attendees, a.is_attending = true) →
      markAllPresent staff now s = s) := by
  constructor
  · intro staff now s h
    obtain ⟨a, ha, hf⟩ := h
    have hmem : a ∈ s.attendees.filter (fun x => !x.is_attending) :=
      List.mem_filter.mpr ⟨ha, by simp [hf]⟩
    have hpos : ((s.attendees.filter (fun x => !x.is_attending)).map (fun x => x.id)).length > 0 := by
      rw [List.length_map]
      exact List.length_pos.mpr (List.ne_nil_of_mem hmem)
    unfold markAllPresent
    rw [if_pos hpos]
  · intro staff now s h
    have hnil : s.attendees.filter (fun x => !x.is_attending) = [] := by
      rw [List.filter_eq_nil_iff]
      intro a ha
      simp [h a ha]
    unfold markAllPresent
    rw [if_neg]
    simp [hnil]

/-- C5 witness: applying the amended theorem at a concrete session with
one absent attendee. -/
theorem markAllPresent_spec_witness :
    markAllPresent "bob" "t1" (initialSession [⟨"a1", "A", "a@x.com", false, none, none, none⟩]) =
      { initialSession [⟨"a1", "A", "a@x.com", false, none, none, none⟩] with
        attendees := (initialSession
          [⟨"a1", "A", "a@x.com", false, none, none, none⟩]).attendees.map (fun a =>
            { a with
              is_attending := true,
              checked_in_at := some "t1",
              checked_in_by := some "bob" }),
        hasUnsavedChanges := true } :=
  markAllPresent_spec.1 "bob" "t1" _ (by decide)

/-! ## C8: markAllPresent idempotence -/

/-- C8: invoking markAllPresent twice in succession (with the timestamps
and operators of the two invocations arbitrary) yields the same working
copy state as invoking it once: after the first invocation no attendee is
absent, so the second invocation takes its no-op branch. -/
theorem markAllPresent_idempotent (st1 n1 st2 n2 : String) (s : Session) :
    markAllPresent st2 n2 (markAllPresent st1 n1 s) = markAllPresent st1 n1 s := by
  by_cases h : ((s.attendees.filter (fun a => !a.is_attending)).map (fun a => a.id)).length > 0
  · have h1 : markAllPresent st1 n1 s =
        { s with
          attendees := s.attendees.map (fun a =>
            { a with
              is_attending := true,
              checked_in_at := some n1,
              checked_in_by := some st1 }),
          hasUnsavedChanges := true } := by
      unfold markAllPresent
      rw [if_pos h]
    rw [h1]
    unfold markAllPresent
    rw [if_neg]
    have : ((s.attendees.map (fun a =>
        ({ a with
          is_attending := true,
          checked_in_at := some n1,
          checked_in_by := some st1 } : Attendee))).filter (fun a => !a.is_attending)) = [] :=
      filter_map_of_false _ _ _ (fun a => rfl)
    simp [this]
  · have h1 : markAllPresent st1 n1 s = s := by
      unfold markAllPresent
      rw [if_neg h]
    rw [h1]
    unfold markAllPresent
    rw [if_neg h]

/-! ## C6: the checked-in-iff invariant -/

/-- C6: each local mutation (toggle, markAllPresent, clearAll) and the
batch persistence update markAttendance preserve, record by record, the
invariant that the check-in timestamp and operator are present exactly
when the attendance flag is true. -/
theorem checked_in_iff_invariant :
    (∀ (staff now aid : String) (l : List Attendee), (∀ a ∈ l, CheckedInIff a) →
      ∀ a ∈ toggleAttendance staff now aid l, CheckedInIff a) ∧
    (∀ (staff now : String) (s : Session), (∀ a ∈ s.attendees, CheckedInIff a) →
      ∀ a ∈ (markAllPresent staff now s).attendees, CheckedInIff a) ∧
    (∀ (s : Session), (∀ a ∈ s.attendees, CheckedInIff a) →
      ∀ a ∈ (clearAll s).attendees, CheckedInIff a) ∧
    (∀ (ids : List String) (b : Bool) (opName now : String) (rows : List Attendee),
      (∀ a ∈ rows, CheckedInIff a) →
      ∀ a ∈ markAttendance ids b opName now rows, CheckedInIff a) := by
  refine ⟨?_, ?_, ?_, ?_⟩
  · intro staff now aid l h a ha
    simp only [toggleAttendance, List.mem_map] at ha
    obtain ⟨x, hx, rfl⟩ := ha
    by_cases hid : x.id == aid
    · cases hb : x.is_attending <;> simp [CheckedInIff, hid, hb]
    · simp only [hid, Bool.false_eq_true, if_false]
      exact h x hx
  · intro staff now s h a ha
    unfold markAllPresent at ha
    split at ha
    · simp only [List.mem_map] at ha
      obtain ⟨x, hx, rfl⟩ := ha
      simp [CheckedInIff]
    · exact h a ha
  · intro s h a ha
    unfold clearAll at ha
    split at ha
    · simp only [List.mem_map] at ha
      obtain ⟨x, hx, rfl⟩ := ha
      simp [CheckedInIff]
    · exact h a ha
  · intro ids b opName now rows h a ha
    simp only [markAttendance, List.mem_map] at ha
    obtain ⟨x, hx, rfl⟩ := ha
    by_cases hid : x.id ∈ ids
    · cases b <;> simp [CheckedInIff, hid]
    · simp only [hid, if_false]
      exact h x hx

/-- C6 witness: a concrete toggled record satisfies the invariant, by the
toggle part of the invariant theorem. -/
theorem checked_in_iff_invariant_witness :
    CheckedInIff ⟨"a1", "A", "a@x.com", true, some "t1", some "s", none⟩ :=
  checked_in_iff_invariant.1 "s" "t1" "a1"
    [⟨"a1", "A", "a@x.com", false, none, none, none⟩] (by decide) _ (by decide)

/-! ## C2: save-diff correctness -/

/-- C2: from any loaded baseline and any sequence of local mutations, the
working copy keeps its identifiers in place, saving issues at most two
batch calls, every issued batch carries exactly the ids of the attendees
whose working-copy flag differs from the baseline with that flag value
(operator set for the present batch, empty for the absent batch), a batch
is issued exactly when its id set is non-empty, and after two toggles of
the same attendee (a net no-op) saving issues no call at all. -/
theorem save_diff_batches :
    (∀ (l : List Attendee) (ms : List Mutation) (staff : String),
      ((applyMutations (initialSession l) ms).attendees.map (fun a => a.id) =
        l.map (fun a => a.id)) ∧
      (saveAttendance staff (applyMutations (initialSession l) ms)).1.length ≤ 2 ∧
      (∀ c ∈ (saveAttendance staff (applyMutations (initialSession l) ms)).1,
        (c.isAttending = true →
          c.ids = diffIds (applyMutations (initialSession l) ms).attendees l true ∧
          c.checkedInBy = staff) ∧
        (c.isAttending = false →
          c.ids = diffIds (applyMutations (initialSession l) ms).attendees l false ∧
          c.checkedInBy = "")) ∧
      ((∃ c ∈ (saveAttendance staff (applyMutations (initialSession l) ms)).1,
          c.isAttending = true) ↔
        diffIds (applyMutations (initialSession l) ms).attendees l true ≠ []) ∧
      ((∃ c ∈ (saveAttendance staff (applyMutations (initialSession l) ms)).1,
          c.isAttending = false) ↔
        diffIds (applyMutations (initialSession l) ms).attendees l false ≠ [])) ∧
    (∀ (l : List Attendee) (aid st1 n1 st2 n2 staff : String),
      (saveAttendance staff (applyMutations (initialSession l)
        [Mutation.toggle st1 n1 aid, Mutation.toggle st2 n2 aid])).1 = []) := by
  constructor
  · intro l ms staff
    refine ⟨applyMutations_idMap ms (initialSession l), ?_⟩
    set s := applyMutations (initialSession l) ms with hs
    have hOrig : s.originalAttendees = l := applyMutations_original ms (initialSession l)
    have hfT : (fun a : Attendee => a.is_attending == true) =
        (fun a : Attendee => a.is_attending) := funext fun a => beq_true_eq _
    have hfF : (fun a : Attendee => a.is_attending == false) =
        (fun a : Attendee => !a.is_attending) := funext fun a => beq_false_eq _
    have hT : diffIds s.attendees l true = toMarkPresent s := by
      unfold diffIds toMarkPresent
      rw [hOrig, hfT]
    have hF : diffIds s.attendees l false = toMarkAbsent s := by
      unfold diffIds toMarkAbsent
      rw [hOrig, hfF]
    by_cases hU : s.hasUnsavedChanges = true
    · by_cases hch : (changedAttendees s.attendees s.originalAttendees).length = 0
      · have hchnil : changedAttendees s.attendees s.originalAttendees = [] :=
          List.length_eq_zero.mp hch
        have hsave : saveAttendance staff s = ([], { s with hasUnsavedChanges := false }) := by
          unfold saveAttendance
          rw [if_neg (by simp [hU]), if_pos hch]
        have hdT : diffIds s.attendees l true = [] := by
          unfold diffIds
          rw [← hOrig, hchnil]
          rfl
        have hdF : diffIds s.attendees l false = [] := by
          unfold diffIds
          rw [← hOrig, hchnil]
          rfl
        rw [hsave]
        simp [hdT, hdF]
      · have hsave : saveAttendance staff s =
            ((if (toMarkPresent s).length > 0 then [⟨toMarkPresent s, true, staff⟩] else []) ++
              (if (toMarkAbsent s).length > 0 then [⟨toMarkAbsent s, false, ""⟩] else []),
              ⟨s.attendees, s.attendees, false⟩) := by
          unfold saveAttendance
          rw [if_neg (by simp [hU]), if_neg hch]
        by_cases hp : (toMarkPresent s).length > 0 <;>
          by_cases hq : (toMarkAbsent s).length > 0
        · have hcalls : (saveAttendance staff s).1 =
              [⟨toMarkPresent s, true, staff⟩, ⟨toMarkAbsent s, false, ""⟩] := by
            rw [hsave, if_pos hp, if_pos hq]
            rfl
          refine ⟨?_, ?_, ?_, ?_⟩
          · rw [hcalls]; simp
          · rw [hcalls]
            intro c hc
            rcases List.mem_pair.mp hc with rfl | rfl
            · exact ⟨fun _ => ⟨hT.symm, rfl⟩, fun hcon => by simp at hcon⟩
            · exact ⟨fun hcon => by simp at hcon, fun _ => ⟨hF.symm, rfl⟩⟩
          · rw [hcalls, hT]
            simp only [List.mem_pair]
            constructor
            · intro _
              exact List.length_pos.mp hp
            · intro _
              exact ⟨⟨toMarkPresent s, true, staff⟩, Or.inl rfl, rfl⟩
          · rw [hcalls, hF]
            simp only [List.mem_pair]
            constructor
            · intro _
              exact List.length_pos.mp hq
            · intro _
              exact ⟨⟨toMarkAbsent s, false, ""⟩, Or.inr rfl, rfl⟩
        · have hqnil : toMarkAbsent s = [] := by
            have : (toMarkAbsent s).length = 0 := by omega
            exact List.length_eq_zero.mp this
          have hcalls : (saveAttendance staff s).1 = [⟨toMarkPresent s, true, staff⟩] := by
            rw [hsave, if_pos hp, if_neg hq]
            rfl
          refine ⟨?_, ?_, ?_, ?_⟩
          · rw [hcalls]; simp
          · rw [hcalls]
            intro c hc
            rcases List.mem_singleton.mp hc with rfl
            exact ⟨fun _ => ⟨hT.symm, rfl⟩, fun hcon => by simp at hcon⟩
          · rw [hcalls, hT]
            simp only [List.mem_singleton]
            constructor
            · intro _
              exact List.length_pos.mp hp
            · intro _
              exact ⟨⟨toMarkPresent s, true, staff⟩, rfl, rfl⟩
          · rw [hcalls, hF, hqnil]
            simp
        · have hpnil : toMarkPresent s = [] := by
            have : (toMarkPresent s).length = 0 := by omega
            exact List.length_eq_zero.mp this
          have hcalls : (saveAttendance staff s).1 = [⟨toMarkAbsent s, false, ""⟩] := by
            rw [hsave, if_neg hp, if_pos hq]
            rfl
          refine ⟨?_, ?_, ?_, ?_⟩
          · rw [hcalls]; simp
          · rw [hcalls]
            intro c hc
            rcases List.mem_singleton.mp hc with rfl
            exact ⟨fun hcon => by simp at hcon, fun _ => ⟨hF.symm, rfl⟩⟩
          · rw [hcalls, hT, hpnil]
            simp
          · rw [hcalls, hF]
            simp only [List.mem_singleton]
            constructor
            · intro _
              exact List.length_pos.mp hq
            · intro _
              exact ⟨⟨toMarkAbsent s, false, ""⟩, rfl, rfl⟩
        · have hpnil : toMarkPresent s = [] := by
            have : (toMarkPresent s).length = 0 := by omega
            exact List.length_eq_zero.mp this
          have hqnil : toMarkAbsent s = [] := by
            have : (toMarkAbsent s).length = 0 := by omega
            exact List.length_eq_zero.mp this
          have hcalls : (saveAttendance staff s).1 = [] := by
            rw [hsave, if_neg hp, if_neg hq]
            rfl
          rw [hcalls, hT, hF, hpnil, hqnil]
          simp
    · have hU0 : s.hasUnsavedChanges = false := by
        revert hU
        cases s.hasUnsavedChanges <;> simp
      have heqbase : s.attendees = l := by
        have := applyMutations_clean ms (initialSession l) (fun _ => rfl) hU0
        rw [hOrig] at this
        exact this
      have hsave : saveAttendance staff s = ([], s) := by
        unfold saveAttendance
        rw [if_pos (by simp [hU0])]
      have hdT : diffIds s.attendees l true = [] := by
        unfold diffIds
        rw [heqbase, changedAttendees_self]
        rfl
      have hdF : diffIds s.attendees l false = [] := by
        unfold diffIds
        rw [heqbase, changedAttendees_self]
        rfl
      rw [hsave]
      simp [hdT, hdF]
  · intro l aid st1 n1 st2 n2 staff
    have hs : applyMutations (initialSession l)
        [Mutation.toggle st1 n1 aid, Mutation.toggle st2 n2 aid] =
        ⟨toggleAttendance st2 n2 aid (toggleAttendance st1 n1 aid l), l, true⟩ := rfl
    have hchg : changedAttendees
        (toggleAttendance st2 n2 aid (toggleAttendance st1 n1 aid l)) l = [] := by
      unfold toggleAttendance
      rw [List.map_map]
      refine changedAttendees_map_self l _ (fun a => ?_)
      by_cases h : a.id = aid <;> simp [h]
    rw [hs]
    unfold saveAttendance
    dsimp only
    rw [hchg]
    simp

/-- C2 witness: with a two-attendee baseline and one toggle, the single
issued batch is the present batch addressing exactly the toggled id. -/
theorem save_diff_batches_witness :
    (⟨["a1"], true, "s"⟩ : MarkCall).ids =
      diffIds (applyMutations (initialSession
        [⟨"a1", "A", "a@x.com", false, none, none, none⟩,
         ⟨"a2", "B", "b@x.com", true, some "t0", some "x", none⟩])
        [Mutation.toggle "s" "t1" "a1"]).attendees
        [⟨"a1", "A", "a@x.com", false, none, none, none⟩,
         ⟨"a2", "B", "b@x.com", true, some "t0", some "x", none⟩] true ∧
    (⟨["a1"], true, "s"⟩ : MarkCall).checkedInBy = "s" :=
  ((save_diff_batches.1
    [⟨"a1", "A", "a@x.com", false, none, none, none⟩,
     ⟨"a2", "B", "b@x.com", true, some "t0", some "x", none⟩]
    [Mutation.toggle "s" "t1" "a1"] "s").2.2.1 ⟨["a1"], true, "s"⟩ (by decide)).1 rfl

/-! ## C1: QR payload parsing -/

/-- C1: a supplied payload that parses to a JSON object carrying
non-empty string members group_id and event_id makes loading adopt
exactly that event and group pair; a payload JSON.parse rejects, and a
parsed payload lacking either member, both fail with the
invalid-QR-format error; and a failed load leaves the session attendee
state untouched (the parse itself is a pure function of the payload in
this model). -/
theorem qr_payload_parsing :
    (∀ (j : Json) (g e : String) (eid : Option String),
      jsMember j "group_id" = some (Json.str g) → g ≠ "" →
      jsMember j "event_id" = some (Json.str e) → e ≠ "" →
      resolveQr eid (some (some j)) = Except.ok (Json.str e, some (Json.str g))) ∧
    (∀ eid : Option String,
      resolveQr eid (some none) = Except.error "Invalid QR code format") ∧
    (∀ (j : Json) (eid : Option String),
      jsMember j "group_id" = none ∨ jsMember j "event_id" = none →
      resolveQr eid (some (some j)) = Except.error "Invalid QR code format") ∧
    (∀ (s : Session) (m : String), applyLoadResult s (Except.error m) = s) := by
  refine ⟨?_, ?_, ?_, ?_⟩
  · intro j g e eid h1 hne1 h2 hne2
    simp [resolveQr, h1, h2, jsTruthy, hne1, hne2]
  · intro eid
    rfl
  · intro j eid h
    rcases h with h | h <;> simp [resolveQr, h, jsTruthy]
  · intro s m
    rfl

/-- C1 witness: a concrete object payload with both members resolves to
its pair. -/
theorem qr_payload_parsing_witness :
    resolveQr none (some (some (Json.obj
        [("group_id", Json.str "g1"), ("event_id", Json.str "e1")]))) =
      Except.ok (Json.str "e1", some (Json.str "g1")) :=
  qr_payload_parsing.1 (Json.obj [("group_id", Json.str "g1"), ("event_id", Json.str "e1")])
    "g1" "e1" none rfl (by decide) rfl (by decide)

/-! ## C3: group resolution by a non-sentinel name -/

/-- C3 counterexample: resolution through the bulk-import path does
create a group.  In a store with no group at all (so none named Acme
Corp in event e1), findOrCreateGroup does not fail with a group-not-found
condition: it returns a freshly created group named Acme Corp and grows
the group table by one row. -/
theorem findOrCreateGroup_creates_counterexample :
    matchingGroups ⟨0, [], []⟩ "e1" "Acme Corp" = [] ∧
    findOrCreateGroup ⟨0, [], []⟩ "e1" "Acme Corp" "c@x.com" =
      some (⟨"g0", "e1", "Acme Corp", "c@x.com"⟩,
        ⟨1, [⟨"g0", "e1", "Acme Corp", "c@x.com"⟩], []⟩) ∧
    (⟨1, [⟨"g0", "e1", "Acme Corp", "c@x.com"⟩], []⟩ : Db).groups.length =
      (⟨0, [], []⟩ : Db).groups.length + 1 := by
  decide

/-- C3 amended: in the add-guest path, resolving a non-sentinel group
name returns the unique existing exact-match group with the store
untouched, and fails with the group-not-found error naming the requested
group when no group matches, creating nothing; the bulk-import path
(findOrCreateGroup) likewise returns the unique existing match, but when
no group matches it creates and returns a new group carrying the
requested name instead of failing. -/
theorem group_resolution_by_name :
    (∀ (db : Db) (eventId guestName guestEmail groupName : String) (g : GroupRow),
      groupName ≠ "CREATE_NEW_GROUP" →
      matchingGroups db eventId groupName = [g] →
      resolveGroupAddGuest db eventId guestName guestEmail groupName = Except.ok (g, db)) ∧
    (∀ (db : Db) (eventId guestName guestEmail groupName : String),
      groupName ≠ "CREATE_NEW_GROUP" →
      matchingGroups db eventId groupName = [] →
      resolveGroupAddGuest db eventId guestName guestEmail groupName =
        Except.error ("Group \"" ++ groupName ++ "\" not found")) ∧
    (∀ (db : Db) (eventId groupName contactEmail : String) (g : GroupRow),
      matchingGroups db eventId groupName = [g] →
      findOrCreateGroup db eventId groupName contactEmail = some (g, db)) ∧
    (∀ (db : Db) (eventId groupName contactEmail : String),
      matchingGroups db eventId groupName = [] →
      findOrCreateGroup db eventId groupName contactEmail =
        some (createGroup db eventId groupName contactEmail) ∧
      (createGroup db eventId groupName contactEmail).1.name = groupName ∧
      (createGroup db eventId groupName contactEmail).2.groups.length =
        db.groups.length + 1) := by
  refine ⟨?_, ?_, ?_, ?_⟩
  · intro db eventId guestName guestEmail groupName g hne hm
    have hb : (groupName == "CREATE_NEW_GROUP") = false := beq_eq_false_iff_ne.mpr hne
    unfold resolveGroupAddGuest findGroupByName
    rw [hm, hb]
    rfl
  · intro db eventId guestName guestEmail groupName hne hm
    have hb : (groupName == "CREATE_NEW_GROUP") = false := beq_eq_false_iff_ne.mpr hne
    unfold resolveGroupAddGuest findGroupByName
    rw [hm, hb]
    rfl
  · intro db eventId groupName contactEmail g hm
    unfold findOrCreateGroup
    rw [hm]
  · intro db eventId groupName contactEmail hm
    refine ⟨?_, rfl, ?_⟩
    · unfold findOrCreateGroup
      rw [hm]
    · show (db.groups ++ [(createGroup db eventId groupName contactEmail).1]).length =
        db.groups.length + 1
      rw [List.length_append]
      rfl

/-- C3 witness: in an empty store the add-guest path fails with the
group-not-found error naming the requested group. -/
theorem group_resolution_by_name_witness :
    resolveGroupAddGuest ⟨0, [], []⟩ "e1" "N" "n@x.com" "Acme Corp" =
      Except.error ("Group \"" ++ "Acme Corp" ++ "\" not found") :=
  group_resolution_by_name.2.1 ⟨0, [], []⟩ "e1" "N" "n@x.com" "Acme Corp" (by decide) rfl

/-! ## C4: the create-new-group sentinel -/

/-- C4: resolving the sentinel name CREATE_NEW_GROUP in the add-guest
path always creates: the result is exactly the freshly created group,
whose name is the submitting guest name, whose email is the guest email
and which is scoped to the event; the group table grows by that one row,
and (because the store hands out an identifier no existing row carries)
the returned group coincides with no existing group, not even one
literally named CREATE_NEW_GROUP. -/
theorem addGuest_sentinel_creates :
    ∀ (db : Db) (eventId guestName guestEmail : String),
      resolveGroupAddGuest db eventId guestName guestEmail "CREATE_NEW_GROUP" =
        Except.ok (createGroup db eventId guestName guestEmail) ∧
      (createGroup db eventId guestName guestEmail).1.name = guestName ∧
      (createGroup db eventId guestName guestEmail).1.email = guestEmail ∧
      (createGroup db eventId guestName guestEmail).1.event_id = eventId ∧
      (createGroup db eventId guestName guestEmail).2.groups =
        db.groups ++ [(createGroup db eventId guestName guestEmail).1] ∧
      ((∀ g ∈ db.groups, g.id ≠ freshGroupId db) →
        ∀ g ∈ db.groups, (createGroup db eventId guestName guestEmail).1 ≠ g) := by
  intro db eventId guestName guestEmail
  refine ⟨rfl, rfl, rfl, rfl, rfl, ?_⟩
  intro h g hg heq
  exact h g hg (by rw [← heq]; rfl)

/-- C4 witness: even when the store holds a group literally named
CREATE_NEW_GROUP, the sentinel resolution returns a group different from
it. -/
theorem addGuest_sentinel_creates_witness :
    (createGroup ⟨5, [⟨"g0", "e1", "CREATE_NEW_GROUP", "x@x.com"⟩], []⟩
        "e1" "N" "n@x.com").1 ≠ ⟨"g0", "e1", "CREATE_NEW_GROUP", "x@x.com"⟩ :=
  (addGuest_sentinel_creates ⟨5, [⟨"g0", "e1", "CREATE_NEW_GROUP", "x@x.com"⟩], []⟩
    "e1" "N" "n@x.com").2.2.2.2.2 (by decide) _ (by decide)

/-! ## C7: CSV header validation -/

/-- C7 counterexample: the alternate spellings are not accepted by the
required-column check.  A table whose group column is spelled group_name
(or group_id in the identifier-based variant) is rejected with a
missing-column error and zero rows, even though the field-mapping switch
understands those spellings. -/
theorem csv_header_spelling_counterexample :
    parseCSV "name,email,group_name\nJohn,john@x.com,TeamA".toList =
      ([], ["Missing required columns: groupname".toList]) ∧
    parseCSVById "name,email,group_id\nJohn,john@x.com,g7".toList =
      ([], ["Missing required columns: groupid".toList]) := by
  decide

/-- C7 amended: the required-column check demands the literal header
spellings name, email and groupname (groupid in the identifier-based
variant); whenever any of these is absent from a table with a header and
at least one data row, parsing aborts with exactly one error message
listing all missing required columns and yields zero valid rows.  The
alternate spellings group_name and group (group_id in the variant) are
accepted only by the field-mapping switch, where each assigns the
group-identifying property of the row. -/
theorem csv_missing_required_columns :
    (∀ csv : Str, 2 ≤ (csvLines csv).length → missingColumns csv ≠ [] →
      parseCSV csv = ([], [missingColumnsMsg (missingColumns csv)])) ∧
    (∀ csv : Str, 2 ≤ (csvLines csv).length → missingColumnsById csv ≠ [] →
      parseCSVById csv = ([], [missingColumnsMsg (missingColumnsById csv)])) ∧
    (∀ (g : RawGuest) (v : Str),
      (assignField g "groupname".toList v).groupName = some v ∧
      (assignField g "group_name".toList v).groupName = some v ∧
      (assignField g "group".toList v).groupName = some v ∧
      (assignFieldById g "groupid".toList v).groupId = some v ∧
      (assignFieldById g "group_id".toList v).groupId = some v) := by
  refine ⟨?_, ?_, ?_⟩
  · intro csv h2 hmiss
    have hfalse : (missingColumns csv).isEmpty = false := by
      cases hmc : missingColumns csv
      · exact absurd hmc hmiss
      · rfl
    unfold parseCSV
    rw [if_neg (by omega), if_pos (by rw [hfalse]; rfl)]
  · intro csv h2 hmiss
    have hfalse : (missingColumnsById csv).isEmpty = false := by
      cases hmc : missingColumnsById csv
      · exact absurd hmc hmiss
      · rfl
    unfold parseCSVById
    rw [if_neg (by omega), if_pos (by rw [hfalse]; rfl)]
  · intro g v
    refine ⟨?_, ?_, ?_, ?_, ?_⟩
    · unfold assignField
      rw [if_neg (by decide), if_neg (by decide), if_pos (Or.inl rfl)]
    · unfold assignField
      rw [if_neg (by decide), if_neg (by decide), if_pos (Or.inr (Or.inl rfl))]
    · unfold assignField
      rw [if_neg (by decide), if_neg (by decide), if_pos (Or.inr (Or.inr rfl))]
    · unfold assignFieldById
      rw [if_neg (by decide), if_neg (by decide), if_pos (Or.inl rfl)]
    · unfold assignFieldById
      rw [if_neg (by decide), if_neg (by decide), if_pos (Or.inr rfl)]

/-- C7 witness: a concrete table lacking the group column aborts with
the single missing-column message. -/
theorem csv_missing_required_columns_witness :
    parseCSV "name,email\nJohn,john@x.com".toList =
      ([], [missingColumnsMsg (missingColumns "name,email\nJohn,john@x.com".toList)]) :=
  csv_missing_required_columns.1 "name,email\nJohn,john@x.com".toList (by decide) (by decide)

/-! ## C9: bulk import never marks attendance -/

/-- A found-or-created group leaves the attendee table of the store
untouched. -/
theorem findOrCreateGroup_attendees (db : Db) (e n c : String) (g : GroupRow) (db1 : Db)
    (h : findOrCreateGroup db e n c = some (g, db1)) : db1.attendees = db.attendees := by
  unfold findOrCreateGroup at h
  rcases hm : matchingGroups db e n with _ | ⟨g0, rest⟩
  · rw [hm] at h
    simp only [Option.some.injEq] at h
    have h2 := congrArg (fun p => p.2.attendees) h
    dsimp at h2
    rw [← h2]
    rfl
  · cases rest with
    | nil =>
      rw [hm] at h
      simp only [Option.some.injEq] at h
      have h2 := congrArg (fun p => p.2.attendees) h
      dsimp at h2
      rw [← h2]
    | cons g1 rest2 =>
      rw [hm] at h
      exact absurd h (by simp)

/-- The bulk import loop only ever appends rows whose attendance flag is
false: every recorded inserted row carries the false flag, and every row
of the final store was either already stored or carries the false
flag. -/
theorem bulkImportGo_flags (eventId : String) (rows : List ImportRow) (keys : List String) :
    ∀ db : Db,
      (∀ a ∈ (bulkImportGo eventId rows keys db).inserted, a.is_attending = false) ∧
      (∀ a ∈ (bulkImportGo eventId rows keys db).db.attendees,
        a ∈ db.attendees ∨ a.is_attending = false) := by
  induction keys with
  | nil =>
    intro db
    constructor
    · intro a ha
      exact absurd ha (by simp [bulkImportGo])
    · intro a ha
      exact Or.inl ha
  | cons key keys ih =>
    intro db
    rcases hf : findOrCreateGroup db eventId key
        (((rows.filter (fun r => r.groupName == key)).headD ⟨"", "", ""⟩).email) with _ | ⟨g, db1⟩
    · have hstep : bulkImportGo eventId rows (key :: keys) db =
          bulkStepFail key (bulkImportGo eventId rows keys db) := by
        conv_lhs => unfold bulkImportGo
        rw [hf]
      rw [hstep]
      constructor
      · intro a ha
        exact (ih db).1 a ha
      · intro a ha
        exact (ih db).2 a ha
    · have hstep : bulkImportGo eventId rows (key :: keys) db =
          bulkStepOk (bulkInsertRows eventId g.id (rows.filter (fun r => r.groupName == key)))
            (bulkImportGo eventId rows keys
              ⟨db1.nextId, db1.groups,
                db1.attendees ++
                  bulkInsertRows eventId g.id (rows.filter (fun r => r.groupName == key))⟩) := by
        conv_lhs => unfold bulkImportGo
        rw [hf]
      have hatt : db1.attendees = db.attendees :=
        findOrCreateGroup_attendees db eventId key _ g db1 hf
      rw [hstep]
      constructor
      · intro a ha
        rcases List.mem_append.mp ha with h | h
        · obtain ⟨r0, hr0, rfl⟩ := List.mem_map.mp h
          rfl
        · exact (ih _).1 a h
      · intro a ha
        rcases (ih _).2 a ha with h | h
        · rcases List.mem_append.mp h with h' | h'
          · rw [hatt] at h'
            exact Or.inl h'
          · obtain ⟨r0, hr0, rfl⟩ := List.mem_map.mp h'
            exact Or.inr rfl
        · exact Or.inr h

/-- C9: for every store and input list, every attendee row that
bulkImportAttendees records as inserted carries the attendance flag
false, and every row of the resulting store either predates the import
or carries the false flag — the input rows carry no attendance
information that could be forwarded. -/
theorem bulk_import_never_marks (db : Db) (eventId : String) (rows : List ImportRow) :
    (∀ a ∈ (bulkImportAttendees db eventId rows).inserted, a.is_attending = false) ∧
    (∀ a ∈ (bulkImportAttendees db eventId rows).db.attendees,
      a ∈ db.attendees ∨ a.is_attending = false) := by
  unfold bulkImportAttendees
  exact bulkImportGo_flags eventId rows (firstOccurrences (rows.map (fun r => r.groupName))) db

/-- C9 witness: the one row imported into an empty store carries the
false flag. -/
theorem bulk_import_never_marks_witness :
    (⟨"e1", "g0", "John", "j@x.com", false⟩ : AttendeeInsertRow).is_attending = false :=
  (bulk_import_never_marks ⟨0, [], []⟩ "e1" [⟨"John", "j@x.com", "G1"⟩]).1
    ⟨"e1", "g0", "John", "j@x.com", false⟩ (by decide)

/-! ## C10: event statistics are total and division-guarded -/

/-- C10: a failed statistics query yields the all-zero record; an event
with zero attendees yields attendance rate zero; and otherwise the rate
is the rounded percentage of checked-in attendees over total attendees
(exact rational arithmetic standing for the floating point of the
source). -/
theorem event_stats_guarded :
    getEventStats none = ⟨0, 0, 0⟩ ∧
    getEventStats (some []) = ⟨0, 0, 0⟩ ∧
    (∀ flags : List Bool, flags ≠ [] →
      getEventStats (some flags) =
        ⟨flags.length, (flags.filter (fun b => b)).length,
          round ((100 * (((flags.filter (fun b => b)).length : ℕ) : ℚ)) /
            ((flags.length : ℕ) : ℚ))⟩) := by
  refine ⟨rfl, ?_, ?_⟩
  · simp [getEventStats]
  · intro flags hne
    have hpos : flags.length > 0 := List.length_pos.mpr hne
    simp only [getEventStats]
    rw [if_pos hpos]
    congr 1
    rw [div_mul_eq_mul_div, mul_comm]

/-- C10 witness: three attendees with one checked in give the rounded
percentage of one third. -/
theorem event_stats_guarded_witness :
    getEventStats (some [true, false, false]) =
      ⟨[true, false, false].length, ([true, false, false].filter (fun b => b)).length,
        round ((100 * ((([true, false, false].filter (fun b => b)).length : ℕ) : ℚ)) /
          ((([true, false, false] : List Bool).length : ℕ) : ℚ))⟩ :=
  event_stats_guarded.2.2 [true, false, false] (by decide)
